import Mathlib

/-!
Verification of the email-server repository (ingestion pipeline, policy
resolver, search engine, account update handler).

The Python source is shallowly embedded: SQLAlchemy rows become Lean
structures, the database becomes an explicit `Store` value, each handler
becomes a pure function on it.  Byte strings decoded with
`decode("utf-8", errors="ignore")` are modelled as `String` (the decode is
the identity on the ASCII payloads considered here); `datetime` values are
modelled as `Int` timestamps.  Python regular expressions (`re.search` with
`re.IGNORECASE`, and the Postgres `~*` operator) are modelled on the
metacharacter-free fragment, where both coincide with leftmost
case-insensitive substring search; queries outside that fragment make the
search function return an explicit error, mirroring the database rejecting
an invalid pattern.
-/

set_option maxRecDepth 8000

namespace EmailServer

/-! ## String helpers (Python `str` operations) -/

/-- Python whitespace as used by `str.strip()` (ASCII subset). -/
def isPyWhitespace (c : Char) : Bool :=
  c = ' ' || c = '\t' || c = '\n' || c = '\r' || c = '\x0b' || c = '\x0c'

/-- `str.strip()` on a character list. -/
def pystripL (s : List Char) : List Char :=
  ((s.dropWhile isPyWhitespace).reverse.dropWhile isPyWhitespace).reverse

/-- Case-insensitive character comparison (`re.IGNORECASE` / `ilike`). -/
def ciEq (a b : Char) : Bool :=
  a.toLower = b.toLower

/-- Is `pat` a case-insensitive prefix of `text`? -/
def ciIsPrefixOf : List Char → List Char → Bool
  | [], _ => true
  | _ :: _, [] => false
  | p :: ps, t :: ts => ciEq p t && ciIsPrefixOf ps ts

/-- Leftmost case-insensitive occurrence of `pat` in `text`, as an offset. -/
def ciFindFrom (pat : List Char) : List Char → Nat → Option Nat
  | [], i => if ciIsPrefixOf pat [] then some i else none
  | t :: ts, i =>
    if ciIsPrefixOf pat (t :: ts) then some i else ciFindFrom pat ts (i + 1)

/-- `re.search(pat, text, re.IGNORECASE)` for a metacharacter-free `pat`:
returns the span `(start, stop)` of the leftmost match. -/
def ciSearch (pat text : List Char) : Option (Nat × Nat) :=
  match ciFindFrom pat text 0 with
  | some i => some (i, i + pat.length)
  | none => none

/-- Does `text` contain a case-insensitive occurrence of `pat`?
Models both Postgres `column ~* pat` and Python `re.search` truthiness for
metacharacter-free patterns. -/
def ciContains (pat text : List Char) : Bool :=
  (ciFindFrom pat text 0).isSome

/-- String-level wrapper for `ciContains`. -/
def ciContainsStr (pat text : String) : Bool :=
  ciContains pat.toList text.toList

/-- `ilike "%p%"`: case-insensitive substring test. -/
def ilikeContains (p text : String) : Bool :=
  ciContainsStr p text

/-- Characters that make a pattern fall outside the modelled literal regex
fragment: regex metacharacters, plus the NUL byte (which the database
driver rejects). -/
def isRegexMeta (c : Char) : Bool :=
  c = '\\' || c = '.' || c = '^' || c = '$' || c = '*' || c = '+' ||
  c = '?' || c = '(' || c = ')' || c = '[' || c = ']' || c = '{' ||
  c = '}' || c = '|' || c = '\x00'

/-- A pattern is in the modelled fragment iff it has no metacharacters. -/
def isLiteralPattern (s : String) : Bool :=
  !s.toList.any isRegexMeta

/-- Python slice `s[:n]` (`String.take`, computed through the character
list so that it evaluates by structural recursion on the string). -/
def pyTake (s : String) (n : Nat) : String :=
  String.mk (s.toList.take n)

/-! ## Policy resolver (`src/storage_config/resolver.py`) -/

/-- `StorageConfig` dataclass: the resolved, effective policy view. -/
structure StorageConfig where
  store_text_only : Bool
  max_attachment_size : Int
  extract_pdf_text : Bool
  extract_docx_text : Bool
  extract_image_text : Bool
  extract_other_text : Bool
deriving Repr, DecidableEq

/-- The global settings fields read by `resolve_storage_config`
(`src/config.py`: `Settings`). -/
structure GlobalSettings where
  store_text_only : Bool
  max_attachment_size_text : Int
  extract_pdf_text : Bool
  extract_docx_text : Bool
  extract_image_text : Bool
  extract_other_text : Bool
deriving Repr, DecidableEq

/-- The per-account override columns of `SMTPConfig` used by the resolver
(tri-valued: `none` = unset). -/
structure StorageOverrides where
  store_text_only_override : Option Bool
  max_attachment_size_override : Option Int
  extract_pdf_text_override : Option Bool
  extract_docx_text_override : Option Bool
  extract_image_text_override : Option Bool
  extract_other_text_override : Option Bool
deriving Repr, DecidableEq

/-- `_resolve_boolean`: global stronger negative for booleans. -/
def resolve_boolean (global_val : Bool) (account_val : Option Bool) : Bool :=
  match account_val with
  | none => global_val
  | some a => global_val && a

/-- `_resolve_max_value`: the smaller limit wins. -/
def resolve_max_value (global_val : Int) (account_val : Option Int) : Int :=
  match account_val with
  | none => global_val
  | some a => min global_val a

/-- `resolve_storage_config`: merge the global settings with one account's
overrides (the `smtp_config is None` branch returns the globals). -/
def resolve_storage_config (settings : GlobalSettings)
    (smtp_config : Option StorageOverrides) : StorageConfig :=
  match smtp_config with
  | none =>
    { store_text_only := settings.store_text_only
      max_attachment_size := settings.max_attachment_size_text
      extract_pdf_text := settings.extract_pdf_text
      extract_docx_text := settings.extract_docx_text
      extract_image_text := settings.extract_image_text
      extract_other_text := settings.extract_other_text }
  | some cfg =>
    { store_text_only :=
        resolve_boolean settings.store_text_only cfg.store_text_only_override
      max_attachment_size :=
        resolve_max_value settings.max_attachment_size_text cfg.max_attachment_size_override
      extract_pdf_text :=
        resolve_boolean settings.extract_pdf_text cfg.extract_pdf_text_override
      extract_docx_text :=
        resolve_boolean settings.extract_docx_text cfg.extract_docx_text_override
      extract_image_text :=
        resolve_boolean settings.extract_image_text cfg.extract_image_text_override
      extract_other_text :=
        resolve_boolean settings.extract_other_text cfg.extract_other_text_override }

/-- `should_extract_text`: select the per-family flag by MIME type. -/
def should_extract_text (config : StorageConfig) (content_type : Option String) : Bool :=
  match content_type with
  | none => false
  | some ct =>
    let ctl := ct.toLower
    if ctl = "application/pdf" then config.extract_pdf_text
    else if ctl = "application/msword" ||
        ctl = "application/vnd.openxmlformats-officedocument.wordprocessingml.document" then
      config.extract_docx_text
    else if ctl.startsWith "image/" then config.extract_image_text
    else if ctl.startsWith "text/" then config.extract_other_text
    else if ctl = "application/json" || ctl = "application/xml" ||
        ctl = "application/csv" || ctl = "application/rtf" then
      config.extract_other_text
    else false

/-! ## MIME messages as produced by `email.message_from_bytes`

The Python parser itself is external; we embed its output: a tree of parts,
flattened to the leaf parts that `msg.walk()` visits (multipart containers
are skipped by every walk in the source).  Decoded payloads are `String`s;
`none` models `get_payload(decode=True)` returning `None`. -/

structure MimePart where
  /-- `part.get_content_type()` (already lower-cased by the parser). -/
  content_type : String
  /-- `part.get_payload(decode=True)`, decoded with `errors="ignore"`. -/
  payload : Option String
  /-- `part.get_filename()`. -/
  filename : Option String
  /-- `part.get('Content-Disposition', '')`. -/
  disposition_header : String
  /-- `part.get_content_disposition()`. -/
  content_disposition : Option String
  /-- `part.get('Content-ID', '')`. -/
  content_id : String
deriving Repr, DecidableEq

inductive MimeBody where
  /-- a non-multipart message: the message is its own single part. -/
  | single (part : MimePart)
  /-- a multipart message: the leaf parts visited by `msg.walk()`. -/
  | multipart (parts : List MimePart)
deriving Repr, DecidableEq

structure RawEmail where
  /-- `msg.get("From", "")`. -/
  from_header : String
  /-- `msg.get("To", "")`. -/
  to_header : String
  /-- `msg.get("Subject", "")`. -/
  subject_header : String
  /-- `msg.get("Message-ID")`, `none` when absent. -/
  message_id_header : Option String
  /-- The `Date` header: `none` = absent, `some none` = present but
  unparseable (RFC 2822 parse raises), `some (some t)` = parsed to `t`. -/
  date_header : Option (Option Int)
  body : MimeBody
  /-- `len(raw_email)` in bytes. -/
  raw_size : Int
deriving Repr, DecidableEq

/-- The dict built by `SMTPClient._parse_email`. -/
structure EmailData where
  smtp_config_id : Int
  sender : String
  recipient : String
  subject : String
  message_id : String
  body_plain : String
  body_html : String
  email_date : Option Int
  content_size : Int
  attachment_count : Int
  /-- `raw_email`, kept in the dict for attachment processing. -/
  raw : RawEmail
deriving Repr, DecidableEq

/-- Python truthiness of an optional string (`if filename:`). -/
def optTruthy (s : Option String) : Bool :=
  match s with
  | none => false
  | some v => v ≠ ""

/-- Case-sensitive substring test (Python `needle in hay`). -/
def csContains (needle hay : String) : Bool :=
  let rec go (pat : List Char) : List Char → Bool
    | [] => pat.isPrefixOf []
    | t :: ts => pat.isPrefixOf (t :: ts) || go pat ts
  go needle.toList hay.toList

/-- `SMTPClient._parse_email`: parse one raw message into an `EmailData`
dict.  Returns `none` when the body walk raises (a `text/plain` or
`text/html` part whose decoded payload is `None` triggers an
`AttributeError`, caught by the surrounding `except`, which logs and
returns `None`).  `now` stands for `datetime.utcnow()`. -/
def parse_email (config_id : Int) (uid : String) (now : Int)
    (r : RawEmail) : Option EmailData :=
  let sender := r.from_header
  let recipient := r.to_header
  let subject := r.subject_header
  let message_id := r.message_id_header.getD ("uid_" ++ uid ++ "_" ++ toString config_id)
  let email_date : Option Int :=
    match r.date_header with
    | none => none
    | some (some t) => some t
    | some none => some now
  let bodies : Option (String × String) :=
    match r.body with
    | .multipart parts =>
      if parts.any (fun p =>
          (p.content_type = "text/plain" || p.content_type = "text/html") && p.payload.isNone)
      then none
      else
        some
          ((parts.filter (fun p => p.content_type = "text/plain")).foldl
              (fun acc p => acc ++ p.payload.getD "") "",
            (parts.filter (fun p => p.content_type = "text/html")).foldl
              (fun acc p => acc ++ p.payload.getD "") "")
    | .single p =>
      match p.payload with
      | none => some ("", "")
      | some decoded =>
        if p.content_type = "text/plain" then some (decoded, "")
        else if p.content_type = "text/html" then some ("", decoded)
        else some ("", "")
  let attachment_count : Int :=
    match r.body with
    | .multipart parts =>
      ((parts.filter (fun p => p.content_disposition = some "attachment")).length : Int)
    | .single _ => 0
  match bodies with
  | none => none
  | some (body_plain, body_html) =>
    some
      { smtp_config_id := config_id
        sender := pyTake sender 500
        recipient := pyTake recipient 500
        subject := subject
        message_id := message_id
        body_plain := body_plain
        body_html := body_html
        email_date := email_date
        content_size := r.raw_size
        attachment_count := attachment_count
        raw := r }

/-! ## Attachment handler (`src/email/attachment_handler.py`) -/

/-- Strip a leading/trailing run of characters in `cs` (Python
`str.strip(chars)`). -/
def pyStripChars (cs : List Char) (s : List Char) : List Char :=
  ((s.dropWhile (cs.contains ·)).reverse.dropWhile (cs.contains ·)).reverse

/-- Collapse runs of two or more underscores to one
(`re.sub(r'_{2,}', '_', filename)`; a single underscore is untouched and
the regex rewrites each maximal run to one underscore, so collapsing every
run is equivalent). -/
def collapseUnderscores : List Char → List Char
  | [] => []
  | [c] => [c]
  | c :: d :: rest =>
    if c = '_' && d = '_' then collapseUnderscores (d :: rest)
    else c :: collapseUnderscores (d :: rest)

/-- The filesystem-hostile characters removed by `sanitize_filename`. -/
def invalidFilenameChars : List Char :=
  "<>:\"/\\|?*[]()\x7b\x7d!@#$%^&+=`~;,'".toList

/-- `src/email/__init__.py::sanitize_filename`. -/
def sanitize_filename (filename : String) : String :=
  if filename = "" then "unknown"
  else
    let f := ((((((filename.replace "=_utf-8_B_" "").replace "=_utf-8_Q_" "").replace
        "_utf-8_" "").replace "=C3=A4" "ae").replace "=C3=BC" "ue").replace
        "=C3=B6" "oe").replace "=C3=9F" "ss"
    let f := f.replace " " "_"
    let f := String.mk (f.toList.filter (fun c => !invalidFilenameChars.contains c))
    let f := String.mk (collapseUnderscores f.toList)
    let f := String.mk (pyStripChars ['_', '.'] f.toList)
    if f = "" then "cleaned_subject" else pyTake f 100

/-- `TextExtractor.extract`, restricted to the UTF-8 branches exercised by
the pipeline model (`text/plain`, `text/csv`, `text/xml`,
`application/json` decode with replacement, modelled as the identity on the
already-decoded payload).  Format branches needing external decoder
libraries (PDF, DOCX, OCR, ...) are out of the embedding and return
`none`, which the handler treats the same as "no text extracted". -/
def text_extract (data : Option String) (content_type : Option String)
    (config : StorageConfig) : Option String :=
  match data, content_type with
  | none, _ => none
  | _, none => none
  | some d, some ct =>
    if d = "" then none
    else if !should_extract_text config ct then none
    else
      let ctl := ct.toLower
      if ctl = "text/plain" || ctl = "text/csv" || ctl = "text/xml" ||
          ctl = "application/json" then some d
      else none

/-- One row of `email_attachments` as the handler builds it.  The model has
no `text_content` column (`src/models/attachment.py` defines none); the
extracted text is written to a filesystem path and the handler sets a
non-column attribute `text_file_path`, so nothing of it is persisted on
the row. -/
structure AttachmentRow where
  email_log_id : Int
  filename : String
  content_type : String
  content_id : String
  size : Int
deriving Repr, DecidableEq

/-- `AttachmentHandler._is_attachment`. -/
def is_attachment (p : MimePart) : Bool :=
  optTruthy p.filename || csContains "attachment" p.disposition_header ||
  p.content_type.startsWith "image/" || p.content_type.startsWith "audio/" ||
  p.content_type.startsWith "video/" || p.content_type.startsWith "application/"

/-- `AttachmentHandler._process_attachment`: build one attachment row.
An empty payload skips the part.  The extracted text (when any) is saved
to the filesystem only and is not part of the returned row. -/
def process_attachment (p : MimePart) (email_log_id : Int)
    (config : StorageConfig) : Option AttachmentRow :=
  let filename :=
    match p.filename with
    | some f => if f ≠ "" then f else "attachment_" ++ toString email_log_id ++ "_unknown"
    | none => "attachment_" ++ toString email_log_id ++ "_unknown"
  let content_type := p.content_type
  let content_id := String.mk (pyStripChars ['<', '>'] p.content_id.toList)
  match p.payload with
  | none => none
  | some payload =>
    if payload = "" then none
    else
      let _text := text_extract (some payload) (some content_type) config
      some
        { email_log_id := email_log_id
          filename := sanitize_filename filename
          content_type := content_type
          content_id := content_id
          size := (payload.length : Int) }

/-- The parts visited by `msg.walk()` minus multipart containers. -/
def walkParts (r : RawEmail) : List MimePart :=
  match r.body with
  | .single p => [p]
  | .multipart ps => ps

/-- `AttachmentHandler.extract_attachments`. -/
def extract_attachments (r : RawEmail) (email_log_id : Int)
    (config : StorageConfig) : List AttachmentRow :=
  (walkParts r).filterMap (fun p =>
    if csContains "attachment" p.disposition_header || is_attachment p then
      process_attachment p email_log_id config
    else none)

/-! ## Storage model and the processing pipeline
(`src/models/*.py`, `src/email/email_processor.py`) -/

/-- One `email_logs` row. -/
structure MessageRow where
  id : Int
  smtp_config_id : Int
  sender : String
  recipient : String
  subject : String
  message_id : String
  body_plain : String
  body_html : String
  log_file_path : Option String
  email_date : Option Int
  processed_at : Int
  content_size : Int
  attachment_count : Int
deriving Repr, DecidableEq

/-- One `smtp_configs` row (the columns the processor reads and writes). -/
structure ConfigRow where
  id : Int
  name : String
  username : String
  account_name : Option String
  enabled : Bool
  last_check : Option Int
  total_emails_processed : Int
deriving Repr, DecidableEq

/-- The relational store plus the model clock (`datetime.utcnow()` /
`func.now()` both read it). -/
structure Store where
  configs : List ConfigRow
  messages : List MessageRow
  attachments : List AttachmentRow
  next_message_id : Int
  now : Int
deriving Repr, DecidableEq

/-- Does a `Message` with this Message-ID already exist?  (The DB enforces
`message_id` UNIQUE; `db.flush()` raises `IntegrityError` on a
duplicate.) -/
def has_message_id (s : Store) (mid : String) : Bool :=
  s.messages.any (fun m => m.message_id = mid)

/-- `EmailProcessor._process_emails`, one iteration of its loop.  Inside
one `get_db_session()` transaction it inserts the `EmailLog` row and
flushes; any exception rolls the whole transaction back and is swallowed
by the per-email `except`:
* a duplicate `message_id` raises `IntegrityError` at flush — rollback,
  store unchanged;
* `attachment_count > 0` reaches
  `attachment_handler.extract_attachments(..., account_email)` where the
  local `account_email` is read before its assignment further down the
  block — `UnboundLocalError`, rollback, store unchanged;
* otherwise the insert commits (the file logger's path is not modelled:
  `log_file_path` stays `none`). -/
def process_one_email (s : Store) (e : EmailData) : Store :=
  if has_message_id s e.message_id then s
  else if e.attachment_count > 0 then s
  else
    { s with
      messages := s.messages ++
        [{ id := s.next_message_id
           smtp_config_id := e.smtp_config_id
           sender := e.sender
           recipient := e.recipient
           subject := e.subject
           message_id := e.message_id
           body_plain := e.body_plain
           body_html := e.body_html
           log_file_path := none
           email_date := e.email_date
           processed_at := s.now
           content_size := e.content_size
           attachment_count := e.attachment_count }]
      next_message_id := s.next_message_id + 1 }

/-- `EmailProcessor._process_emails`: process a batch, one transaction per
message, errors contained per message. -/
def process_emails (s : Store) (emails : List EmailData) : Store :=
  emails.foldl process_one_email s

/-- `db.query(SMTPConfig).filter(SMTPConfig.id == cid).first()`. -/
def find_config (s : Store) (cid : Int) : Option ConfigRow :=
  s.configs.find? (fun c => c.id = cid)

/-- Increment `total_emails_processed` on the first row with this id
(`EmailProcessor._update_server_stats`). -/
def bump_total : List ConfigRow → Int → Int → List ConfigRow
  | [], _, _ => []
  | c :: cs, cid, n =>
    if c.id = cid then { c with total_emails_processed := c.total_emails_processed + n } :: cs
    else c :: bump_total cs cid n

/-- Set `last_check` on the first row with this id. -/
def set_last_check : List ConfigRow → Int → Int → List ConfigRow
  | [], _, _ => []
  | c :: cs, cid, t =>
    if c.id = cid then { c with last_check := some t } :: cs
    else c :: set_last_check cs cid t

def update_server_stats (s : Store) (cid : Int) (email_count : Int) : Store :=
  { s with configs := bump_total s.configs cid email_count }

def update_last_check (s : Store) (cid : Int) : Store :=
  { s with configs := set_last_check s.configs cid s.now }

/-- The outcome of `client.fetch_new_emails()` as seen by
`_process_server`: either a (possibly empty) list of parsed messages — the
client catches its own `Exception`s and returns `[]` — or a cooperative
cancellation (`asyncio.CancelledError`), which is a `BaseException` and
passes through every `except Exception` in the call chain. -/
inductive FetchOutcome where
  | fetched (emails : List EmailData)
  | cancelled
deriving Repr, DecidableEq

/-- How a poll of one account ended: `completed` = the body of
`_process_server` ran to its end; `aborted` = an uncatchable exception
(cancellation) propagated out.  Both carry the resulting store. -/
inductive PollResult where
  | completed (s : Store)
  | aborted (s : Store)
deriving Repr, DecidableEq

def PollResult.store : PollResult → Store
  | .completed s => s
  | .aborted s => s

/-- `EmailProcessor._process_server`: fetch, process the batch, update the
stats, then — still inside the `try` block, there is no `finally` — update
`last_check`.  A cancelled fetch propagates before any of that. -/
def process_server (s : Store) (cid : Int) (fetch : FetchOutcome) : PollResult :=
  match fetch with
  | .cancelled => .aborted s
  | .fetched emails =>
    let s1 :=
      if emails.isEmpty then s
      else update_server_stats (process_emails s emails) cid (emails.length : Int)
    .completed (update_last_check s1 cid)

/-! ## Search engine (`src/handlers/email_handler.py::search_emails`,
`_generate_preview`, `_build_attachment_infos`) -/

/-- The query parameters of `GET /emails/search`, with FastAPI defaults. -/
structure SearchParams where
  query : String := ""
  search_attachments : Bool := false
  field : Option String := none
  /-- `date_from`: `none` = absent or falsy (filter skipped), `some none` =
  present but `datetime.fromisoformat` raises (filter skipped via
  `except ValueError: pass`), `some (some t)` = parsed to `t`. -/
  date_from : Option (Option Int) := none
  date_to : Option (Option Int) := none
  smtp_config_id : Option Int := none
  has_attachments : Bool := false
  sort_by : String := "email_date"
  sort_order : String := "desc"
  participant : Option String := none
  from_me : Bool := false
  to_me : Bool := false
  skip : Int := 0
  limit : Int := 50
deriving Repr, DecidableEq

structure AttachmentInfo where
  filename : String
  content_type : Option String
  size : Int
  content : Option String
deriving Repr, DecidableEq

structure SearchResult where
  id : Int
  sender : String
  recipient : String
  subject : String
  email_date : Option Int
  processed_at : Int
  attachment_count : Int
  attachments : List AttachmentInfo
  matched_field : String
  preview : String
deriving Repr, DecidableEq

/-- Ways the handler aborts with an unhandled exception (an HTTP 500, not
a validation response):
* `attribute_error`: the query build evaluates
  `EmailAttachment.text_content`, an attribute the model class does not
  define — `AttributeError`;
* `unmodeled_regex`: the pattern falls outside the modelled literal
  fragment (regex metacharacters or NUL), where the embedding does not
  claim to reproduce the database's regex engine;
* `sql_error`: a negative `OFFSET`/`LIMIT` is rejected by the database. -/
inductive SearchError where
  | attribute_error
  | unmodeled_regex
  | sql_error
deriving Repr, DecidableEq

/-- `_build_attachment_infos` at the search call site
(`include_content=False`; the `True` branch would read the missing
`text_content` attribute). -/
def build_attachment_infos (attachments : List AttachmentRow) : List AttachmentInfo :=
  attachments.map (fun a =>
    { filename := a.filename
      content_type := some a.content_type
      size := a.size
      content := none })

/-- Python slice `text[start:stop]` on a character list. -/
def sliceL (l : List Char) (start stop : Nat) : List Char :=
  (l.take stop).drop start

/-- The found-match arm of `_generate_preview`: the window around the
match `[ms, me)`, stripped, with `"..."` marks when truncated. -/
def previewAround (tl : List Char) (ms me : Nat) : List Char :=
  let start := ms - 100
  let stop := min tl.length (me + 100)
  let preview := pystripL (sliceL tl start stop)
  let preview := if start > 0 then "...".toList ++ preview else preview
  if stop < tl.length then preview ++ "...".toList else preview

/-- `_generate_preview(text, query, length=200)`. -/
def generate_preview (text query : String) : String :=
  if text = "" || query = "" then ""
  else
    match ciSearch query.toList text.toList with
    | some (ms, me) => String.mk (previewAround text.toList ms me)
    | none =>
      String.mk (text.toList.take 200) ++
        (if text.toList.length > 200 then "..." else "")

/-- Python falsiness of the `field` parameter (`not field`). -/
def fieldFalsy (f : Option String) : Bool :=
  match f with
  | none => true
  | some s => s = ""

/-- The filter-only stage of `search_emails` (steps before the regex
conditions), as one predicate per message row. -/
def message_passes_filters (p : SearchParams) (account_email : Option String)
    (m : MessageRow) : Bool :=
  (match p.smtp_config_id with
   | some cid => cid = 0 || m.smtp_config_id = cid
   | none => true) &&
  (!p.has_attachments || m.attachment_count > 0) &&
  (match p.participant with
   | some part =>
     part = "" || ilikeContains part m.sender || ilikeContains part m.recipient
   | none => true) &&
  (!(p.from_me && optTruthy account_email) ||
    ilikeContains (account_email.getD "") m.sender) &&
  (!(p.to_me && optTruthy account_email) ||
    ilikeContains (account_email.getD "") m.recipient) &&
  (match p.date_from with
   | some (some t) => (match m.email_date with | some d => t ≤ d | none => false)
   | _ => true) &&
  (match p.date_to with
   | some (some t) => (match m.email_date with | some d => d ≤ t | none => false)
   | _ => true)

/-- The per-row `~*` condition attached by the regex stage. -/
def regex_row_pred (p : SearchParams) (m : MessageRow) : Bool :=
  if p.field = some "sender" then ciContainsStr p.query m.sender
  else if p.field = some "subject" then ciContainsStr p.query m.subject
  else if p.field = some "body" then ciContainsStr p.query m.body_plain
  else
    ciContainsStr p.query m.sender || ciContainsStr p.query m.subject ||
    ciContainsStr p.query m.body_plain

/-- The regex stage of `search_emails`: attach `~*` conditions per `field`.
Reaching for `EmailAttachment.text_content` (explicit `field="attachment"`,
or the all-fields branch with `search_attachments=True`) raises
`AttributeError` — the model class has no such column — before any row is
fetched. -/
def regex_stage (p : SearchParams) (rows : List MessageRow) :
    Except SearchError (List MessageRow) :=
  if p.query = "" then .ok rows
  else if p.field = some "attachment" then .error .attribute_error
  else if p.field ≠ some "sender" && p.field ≠ some "subject" &&
      p.field ≠ some "body" && p.search_attachments then
    .error .attribute_error
  else if !isLiteralPattern p.query then .error .unmodeled_regex
  else .ok (rows.filter (regex_row_pred p))

/-- A stable structural insertion sort modelling `ORDER BY` (chosen over
`List.mergeSort` so that concrete searches evaluate by reduction; any
permutation sorted under `le` is a faithful model of the SQL sort). -/
def insertSorted {α : Type} (le : α → α → Bool) (a : α) : List α → List α
  | [] => [a]
  | b :: l => if le a b then a :: b :: l else b :: insertSorted le a l

def order_by {α : Type} (le : α → α → Bool) : List α → List α
  | [] => []
  | a :: l => insertSorted le a (order_by le l)

/-- Comparison on the selected sort column; `asc` with NULLS LAST,
otherwise (any other `sort_order`) `desc` with NULLS FIRST, per the
Postgres defaults. -/
def sort_le (p : SearchParams) (a b : MessageRow) : Bool :=
  let leOptInt : Option Int → Option Int → Bool := fun x y =>
    match x, y with
    | none, none => true
    | none, some _ => false
    | some _, none => true
    | some u, some v => u ≤ v
  let asc : MessageRow → MessageRow → Bool := fun x y =>
    if p.sort_by = "processed_at" then x.processed_at ≤ y.processed_at
    else if p.sort_by = "sender" then x.sender ≤ y.sender
    else if p.sort_by = "subject" then x.subject ≤ y.subject
    else leOptInt x.email_date y.email_date
  if p.sort_order = "asc" then asc a b else asc b a

/-- Build one `SearchResult` from a fetched row (the per-row loop at the
end of `search_emails`).  The `field == "attachment" or search_attachments`
arm is unreachable from `search_emails` for a non-empty query — those
parameter combinations already raised at query-build time — and the loop
body would raise the same `AttributeError` at `att.text_content`; the
model returns the pre-loop defaults there. -/
def build_search_result (db : Store) (p : SearchParams) (m : MessageRow) :
    SearchResult :=
  let attachments := db.attachments.filter (fun a => a.email_log_id = m.id)
  let mfp : String × String :=
    if p.query ≠ "" then
      let body_text := m.body_plain
      let subject_text := m.subject
      let sender_text := m.sender
      if p.field = some "body" || (fieldFalsy p.field && ciContainsStr p.query body_text) then
        ("body", generate_preview body_text p.query)
      else if p.field = some "subject" ||
          (fieldFalsy p.field && ciContainsStr p.query subject_text) then
        ("subject", generate_preview subject_text p.query)
      else if p.field = some "sender" ||
          (fieldFalsy p.field && ciContainsStr p.query sender_text) then
        ("sender", generate_preview sender_text p.query)
      else if p.field = some "attachment" || p.search_attachments then
        ("metadata", "")
      else ("metadata", generate_preview body_text p.query)
    else ("metadata", "")
  { id := m.id
    sender := m.sender
    recipient := m.recipient
    subject := m.subject
    email_date := m.email_date
    processed_at := m.processed_at
    attachment_count := m.attachment_count
    attachments := build_attachment_infos attachments
    matched_field := mfp.1
    preview := mfp.2 }

/-- `GET /emails/search` (`search_emails`): clamp the limit, resolve the
account email, filter, attach regex conditions, sort, paginate, build
results.  No pattern validation of any kind is performed before the
query executes. -/
def search_emails (db : Store) (p : SearchParams) :
    Except SearchError (List SearchResult) :=
  let limit := min p.limit 100
  let account_email : Option String :=
    match p.smtp_config_id with
    | some cid => if cid ≠ 0 then (find_config db cid).map (fun c => c.username) else none
    | none => none
  let filtered := db.messages.filter (message_passes_filters p account_email)
  match regex_stage p filtered with
  | .error e => .error e
  | .ok rows =>
    let sorted := order_by (sort_le p) rows
    if p.skip < 0 || limit < 0 then .error .sql_error
    else .ok (((sorted.drop p.skip.toNat).take limit.toNat).map (build_search_result db p))

/-- `SearchService._validate_regex`
(`src/email/search_service.py`, the separate ripgrep-based service — not
called by the HTTP search handler).  `re.compile` failure is modelled on
the literal fragment, where compilation never fails; patterns outside the
fragment are conservatively treated as failing to compile. -/
def validate_regex (pattern : String) : Bool :=
  if pattern = "" then false
  else if pattern.toList.contains '\x00' then false
  else if pattern.length > 500 then false
  else isLiteralPattern pattern

/-! ## Account update handler
(`src/handlers/email_handler.py::update_smtp_config`,
`SMTPConfigUpdate`) -/

/-- The `smtp_configs` row at the Python object level: every attribute can
hold `None` before the commit.  `id`, `created_at`, `updated_at`,
`last_check` and `total_emails_processed` are columns of the model that
`SMTPConfigUpdate` does not expose. -/
structure ConfigRecord where
  id : Int
  name : Option String
  account_name : Option String
  host : Option String
  port : Option Int
  smtp_host : Option String
  smtp_port : Option Int
  username : Option String
  password : Option String
  imap_use_ssl : Option Bool
  imap_use_tls : Option Bool
  smtp_use_ssl : Option Bool
  smtp_use_tls : Option Bool
  enabled : Option Bool
  store_text_only_override : Option Bool
  max_attachment_size_override : Option Int
  extract_pdf_text_override : Option Bool
  extract_docx_text_override : Option Bool
  extract_image_text_override : Option Bool
  extract_other_text_override : Option Bool
  created_at : Option Int
  updated_at : Option Int
  last_check : Option Int
  total_emails_processed : Option Int
deriving Repr, DecidableEq

/-- A PUT `/smtp-configs/{id}` body (`SMTPConfigUpdate`): for each field,
`none` = not present in the request, `some none` = explicitly sent as
`null`, `some (some v)` = sent as `v`. -/
structure SMTPConfigUpdate where
  name : Option (Option String) := none
  account_name : Option (Option String) := none
  host : Option (Option String) := none
  port : Option (Option Int) := none
  smtp_host : Option (Option String) := none
  smtp_port : Option (Option Int) := none
  username : Option (Option String) := none
  password : Option (Option String) := none
  imap_use_ssl : Option (Option Bool) := none
  imap_use_tls : Option (Option Bool) := none
  smtp_use_ssl : Option (Option Bool) := none
  smtp_use_tls : Option (Option Bool) := none
  enabled : Option (Option Bool) := none
  store_text_only_override : Option (Option Bool) := none
  max_attachment_size_override : Option (Option Int) := none
  extract_pdf_text_override : Option (Option Bool) := none
  extract_docx_text_override : Option (Option Bool) := none
  extract_image_text_override : Option (Option Bool) := none
  extract_other_text_override : Option (Option Bool) := none
deriving Repr, DecidableEq

/-- One `(field, value)` pair of `config_data.dict(exclude_unset=True)`;
the keys are the fixed field names of `SMTPConfigUpdate`, so they are
embedded as constructors. -/
inductive UpdateItem where
  | name (v : Option String)
  | account_name (v : Option String)
  | host (v : Option String)
  | port (v : Option Int)
  | smtp_host (v : Option String)
  | smtp_port (v : Option Int)
  | username (v : Option String)
  | password (v : Option String)
  | imap_use_ssl (v : Option Bool)
  | imap_use_tls (v : Option Bool)
  | smtp_use_ssl (v : Option Bool)
  | smtp_use_tls (v : Option Bool)
  | enabled (v : Option Bool)
  | store_text_only_override (v : Option Bool)
  | max_attachment_size_override (v : Option Int)
  | extract_pdf_text_override (v : Option Bool)
  | extract_docx_text_override (v : Option Bool)
  | extract_image_text_override (v : Option Bool)
  | extract_other_text_override (v : Option Bool)
deriving Repr, DecidableEq

/-- A present field contributes one dict item; an unset one contributes
none (`exclude_unset=True`). -/
def optItem {γ : Type} (o : Option γ) (mk : γ → UpdateItem) : List UpdateItem :=
  match o with
  | some v => [mk v]
  | none => []

/-- `config_data.dict(exclude_unset=True).items()`, in field declaration
order. -/
def request_items (r : SMTPConfigUpdate) : List UpdateItem :=
  optItem r.name .name ++ optItem r.account_name .account_name ++
  optItem r.host .host ++ optItem r.port .port ++
  optItem r.smtp_host .smtp_host ++ optItem r.smtp_port .smtp_port ++
  optItem r.username .username ++ optItem r.password .password ++
  optItem r.imap_use_ssl .imap_use_ssl ++ optItem r.imap_use_tls .imap_use_tls ++
  optItem r.smtp_use_ssl .smtp_use_ssl ++ optItem r.smtp_use_tls .smtp_use_tls ++
  optItem r.enabled .enabled ++
  optItem r.store_text_only_override .store_text_only_override ++
  optItem r.max_attachment_size_override .max_attachment_size_override ++
  optItem r.extract_pdf_text_override .extract_pdf_text_override ++
  optItem r.extract_docx_text_override .extract_docx_text_override ++
  optItem r.extract_image_text_override .extract_image_text_override ++
  optItem r.extract_other_text_override .extract_other_text_override

/-- `setattr(config, field, value)` for one dict item. -/
def set_field (c : ConfigRecord) : UpdateItem → ConfigRecord
  | .name v => { c with name := v }
  | .account_name v => { c with account_name := v }
  | .host v => { c with host := v }
  | .port v => { c with port := v }
  | .smtp_host v => { c with smtp_host := v }
  | .smtp_port v => { c with smtp_port := v }
  | .username v => { c with username := v }
  | .password v => { c with password := v }
  | .imap_use_ssl v => { c with imap_use_ssl := v }
  | .imap_use_tls v => { c with imap_use_tls := v }
  | .smtp_use_ssl v => { c with smtp_use_ssl := v }
  | .smtp_use_tls v => { c with smtp_use_tls := v }
  | .enabled v => { c with enabled := v }
  | .store_text_only_override v => { c with store_text_only_override := v }
  | .max_attachment_size_override v => { c with max_attachment_size_override := v }
  | .extract_pdf_text_override v => { c with extract_pdf_text_override := v }
  | .extract_docx_text_override v => { c with extract_docx_text_override := v }
  | .extract_image_text_override v => { c with extract_image_text_override := v }
  | .extract_other_text_override v => { c with extract_other_text_override := v }

/-- The NOT NULL columns of `smtp_configs` (`nullable=False` in
`src/models/smtp_config.py`); a commit writing `NULL` into one of them
raises `IntegrityError`. -/
def violates_not_null (c : ConfigRecord) : Bool :=
  c.name.isNone || c.host.isNone || c.port.isNone || c.smtp_port.isNone ||
  c.username.isNone || c.password.isNone

/-- `PUT /smtp-configs/{id}` (`update_smtp_config`): apply every present
field with `setattr` and commit.  A commit violating NOT NULL rolls back
(`.error`).  When the net change is empty no UPDATE is issued; otherwise
the `onupdate=func.now()` of `updated_at` stamps the row with `now`. -/
def update_smtp_config (now : Int) (c : ConfigRecord) (r : SMTPConfigUpdate) :
    Except Unit ConfigRecord :=
  let c2 := (request_items r).foldl set_field c
  if violates_not_null c2 then .error ()
  else if c2 = c then .ok c2
  else .ok { c2 with updated_at := some now }

/-! ## Concrete fixtures -/

/-- The `text/plain` body part of the spec's scenario-1 message. -/
def m1BodyPart : MimePart :=
  { content_type := "text/plain", payload := some "body", filename := none
    disposition_header := "", content_disposition := none, content_id := "" }

/-- The `text/plain` attachment `note.txt` with payload `hello`. -/
def m1NotePart : MimePart :=
  { content_type := "text/plain", payload := some "hello"
    filename := some "note.txt"
    disposition_header := "attachment; filename=\"note.txt\""
    content_disposition := some "attachment", content_id := "" }

/-- Scenario 1 of the spec: `Message-ID: <m1>`, `From: a@x`, `To: b@y`,
`Subject: Hello`, a plain body and one plain attachment. -/
def m1Raw : RawEmail :=
  { from_header := "a@x", to_header := "b@y", subject_header := "Hello"
    message_id_header := some "<m1>", date_header := none
    body := .multipart [m1BodyPart, m1NotePart], raw_size := 300 }

/-- What `_parse_email` produces for `m1Raw` (note: the body walk also
accumulates the `text/plain` attachment payload into `body_plain`). -/
def m1Data : EmailData :=
  { smtp_config_id := 1, sender := "a@x", recipient := "b@y"
    subject := "Hello", message_id := "<m1>", body_plain := "bodyhello"
    body_html := "", email_date := none, content_size := 300
    attachment_count := 1, raw := m1Raw }

/-- A single-account store with no messages. -/
def demoConfig : ConfigRow :=
  { id := 1, name := "acct", username := "u@x", account_name := none
    enabled := true, last_check := none, total_emails_processed := 0 }

def ingestStore0 : Store :=
  { configs := [demoConfig], messages := [], attachments := []
    next_message_id := 1, now := 1000 }

/-- An HTML-only message (no plain part, no attachments). -/
def htmlPart : MimePart :=
  { content_type := "text/html", payload := some "<p>Hello</p>"
    filename := none, disposition_header := "", content_disposition := none
    content_id := "" }

def htmlRaw : RawEmail :=
  { from_header := "a@x", to_header := "b@y", subject_header := "Hi"
    message_id_header := some "<mh>", date_header := none
    body := .single htmlPart, raw_size := 120 }

/-- What `_parse_email` produces for `htmlRaw`. -/
def htmlData : EmailData :=
  { smtp_config_id := 1, sender := "a@x", recipient := "b@y"
    subject := "Hi", message_id := "<mh>", body_plain := ""
    body_html := "<p>Hello</p>", email_date := none, content_size := 120
    attachment_count := 0, raw := htmlRaw }

/-! ## Pipeline lemmas -/

theorem process_one_email_configs (s : Store) (e : EmailData) :
    (process_one_email s e).configs = s.configs := by
  unfold process_one_email
  split
  · rfl
  · split <;> rfl

theorem process_one_email_now (s : Store) (e : EmailData) :
    (process_one_email s e).now = s.now := by
  unfold process_one_email
  split
  · rfl
  · split <;> rfl

theorem process_emails_configs (emails : List EmailData) (s : Store) :
    (process_emails s emails).configs = s.configs := by
  induction emails generalizing s with
  | nil => rfl
  | cons e rest ih =>
    show (process_emails (process_one_email s e) rest).configs = s.configs
    rw [ih, process_one_email_configs]

theorem process_emails_now (emails : List EmailData) (s : Store) :
    (process_emails s emails).now = s.now := by
  induction emails generalizing s with
  | nil => rfl
  | cons e rest ih =>
    show (process_emails (process_one_email s e) rest).now = s.now
    rw [ih, process_one_email_now]

/-- The message table only grows, so a present Message-ID stays present. -/
theorem has_message_id_mono (s : Store) (e : EmailData) (mid : String)
    (h : has_message_id s mid = true) :
    has_message_id (process_one_email s e) mid = true := by
  unfold process_one_email
  split
  · exact h
  · split
    · exact h
    · simp only [has_message_id, List.any_append] at h ⊢
      simp [h]

/-- A message whose Message-ID is already stored, or that carries
attachments (the `UnboundLocalError` path), leaves the store unchanged. -/
theorem process_one_email_noop (s : Store) (e : EmailData)
    (h : has_message_id s e.message_id = true ∨ 0 < e.attachment_count) :
    process_one_email s e = s := by
  unfold process_one_email
  rcases h with h | h
  · simp [h]
  · split
    · rfl
    · simp [h]

/-- After processing, either the id is stored or the message had
attachments (and was rolled back). -/
theorem process_one_email_post (s : Store) (e : EmailData) :
    has_message_id (process_one_email s e) e.message_id = true ∨
      0 < e.attachment_count := by
  by_cases hm : has_message_id s e.message_id = true
  · exact Or.inl (has_message_id_mono s e _ hm)
  · by_cases ha : 0 < e.attachment_count
    · exact Or.inr ha
    · left
      unfold process_one_email
      rw [if_neg (by simp [hm]), if_neg ha]
      simp [has_message_id]

theorem process_emails_has_mono (emails : List EmailData) (s : Store)
    (mid : String) (h : has_message_id s mid = true) :
    has_message_id (process_emails s emails) mid = true := by
  induction emails generalizing s with
  | nil => exact h
  | cons e rest ih =>
    exact ih (process_one_email s e) (has_message_id_mono s e mid h)

/-! ## Claim C3 -/

/-- C3: policy resolution obeys global-stronger-negative: every effective
boolean flag is the conjunction of the global flag with the override
(defaulted to the global when unset) — in particular a `false` global wins
regardless of the override — and the effective max attachment size is
`min(global, override)` with the override defaulted to the global. -/
theorem claim_C3_policy_global_stronger_negative :
    (∀ (g : Bool) (a : Option Bool), resolve_boolean g a = (g && a.getD g)) ∧
    (∀ a : Option Bool, resolve_boolean false a = false) ∧
    (∀ (g : Int) (a : Option Int), resolve_max_value g a = min g (a.getD g)) ∧
    (∀ (st : GlobalSettings) (o : StorageOverrides),
      resolve_storage_config st (some o) =
        { store_text_only :=
            st.store_text_only && o.store_text_only_override.getD st.store_text_only
          max_attachment_size :=
            min st.max_attachment_size_text
              (o.max_attachment_size_override.getD st.max_attachment_size_text)
          extract_pdf_text :=
            st.extract_pdf_text && o.extract_pdf_text_override.getD st.extract_pdf_text
          extract_docx_text :=
            st.extract_docx_text && o.extract_docx_text_override.getD st.extract_docx_text
          extract_image_text :=
            st.extract_image_text && o.extract_image_text_override.getD st.extract_image_text
          extract_other_text :=
            st.extract_other_text && o.extract_other_text_override.getD st.extract_other_text }) := by
  have hb : ∀ (g : Bool) (a : Option Bool), resolve_boolean g a = (g && a.getD g) := by
    intro g a
    cases a with
    | none => simp [resolve_boolean]
    | some b => rfl
  have hm : ∀ (g : Int) (a : Option Int), resolve_max_value g a = min g (a.getD g) := by
    intro g a
    cases a with
    | none => simp [resolve_max_value]
    | some v => rfl
  refine ⟨hb, ?_, hm, ?_⟩
  · intro a
    rw [hb]
    simp
  · intro st o
    simp only [resolve_storage_config, hb, hm]

/-! ## Claim C1 -/

/-- C1: the spec's scenario-1 ingest (one plain body, one `note.txt`
attachment, `Message-ID: <m1>`) stores NOTHING — the claim expects one
Message row and one Attachment row.  `_process_emails` evaluates the local
`account_email` in the `extract_attachments(...)` call before the line
that assigns it, so every message with `attachment_count > 0` dies with
`UnboundLocalError` and the per-message transaction rolls back; the store
is left exactly as it was (also note the parsed `body_plain` is
`"bodyhello"`, not `"body"`, because the body walk concatenates every
`text/plain` part including the attachment). -/
theorem claim_C1_attachment_ingest_stores_no_rows :
    parse_email 1 "7" 1000 m1Raw = some m1Data ∧
    m1Data.attachment_count = 1 ∧
    m1Data.message_id = "<m1>" ∧
    m1Data.body_plain = "bodyhello" ∧
    process_emails ingestStore0 [m1Data] = ingestStore0 ∧
    ingestStore0.messages = [] ∧
    ingestStore0.attachments = [] :=
  ⟨rfl, rfl, rfl, rfl, rfl, rfl, rfl⟩

/-! ## Claim C2 -/

/-- C2: ingestion is idempotent — processing a message whose Message-ID is
already stored leaves the store unchanged (the duplicate insert violates
the UNIQUE constraint at flush and the transaction rolls back), and
re-processing a whole batch reproduces exactly the store the first run
produced, so polling the same mailbox N times yields the first poll's
messages with no duplicates. -/
theorem claim_C2_ingest_idempotent :
    (∀ (s : Store) (e : EmailData),
      has_message_id s e.message_id = true → process_emails s [e] = s) ∧
    (∀ (s : Store) (emails : List EmailData),
      process_emails (process_emails s emails) emails = process_emails s emails) := by
  constructor
  · intro s e h
    show process_one_email s e = s
    exact process_one_email_noop s e (Or.inl h)
  · intro s emails
    induction emails generalizing s with
    | nil => rfl
    | cons e rest ih =>
      show process_emails (process_one_email (process_emails (process_one_email s e) rest) e) rest =
        process_emails (process_one_email s e) rest
      have hnoop :
          process_one_email (process_emails (process_one_email s e) rest) e =
            process_emails (process_one_email s e) rest := by
        apply process_one_email_noop
        rcases process_one_email_post s e with h | h
        · exact Or.inl (process_emails_has_mono rest _ _ h)
        · exact Or.inr h
      rw [hnoop, ih]

/-- A store that already holds the Message-ID `<mh>`. -/
def dupStore : Store :=
  { configs := [demoConfig]
    messages := [{ id := 1, smtp_config_id := 1, sender := "a@x"
                   recipient := "b@y", subject := "Hi", message_id := "<mh>"
                   body_plain := "", body_html := "<p>Hello</p>"
                   log_file_path := none, email_date := none
                   processed_at := 1000, content_size := 120
                   attachment_count := 0 }]
    attachments := [], next_message_id := 2, now := 1001 }

/-- C2 witness: a concrete duplicate is skipped (store unchanged). -/
theorem claim_C2_ingest_idempotent_witness :
    process_emails dupStore [htmlData] = dupStore :=
  claim_C2_ingest_idempotent.1 dupStore htmlData rfl

/-! ## Claim C7 -/

/-- C7 counterexample: ingesting a message whose parsed `body_plain` is
empty and `body_html` is `"<p>Hello</p>"` stores a Message row whose
`body_plain` is the empty string — the claim asserts it would be non-empty
(derived by stripping tags). -/
theorem claim_C7_counterexample_html_only_body_stays_empty :
    parse_email 1 "9" 1000 htmlRaw = some htmlData ∧
    htmlData.body_plain = "" ∧
    htmlData.body_html = "<p>Hello</p>" ∧
    (process_emails ingestStore0 [htmlData]).messages.map (fun m => m.body_plain) = [""] :=
  ⟨rfl, rfl, rfl, rfl⟩

/-- C7 (amended): no plain-text body is ever derived from HTML — the
stored `body_plain` equals the parsed `body_plain` verbatim (empty for an
HTML-only message) and `body_html` is stored unchanged. -/
theorem claim_C7_amended_no_html_derivation (s : Store) (e : EmailData)
    (hnew : has_message_id s e.message_id = false)
    (hatt : e.attachment_count = 0)
    (hplain : e.body_plain = "")
    (_hhtml : e.body_html ≠ "") :
    ∃ row : MessageRow,
      (process_emails s [e]).messages = s.messages ++ [row] ∧
      row.body_plain = "" ∧
      row.body_html = e.body_html := by
  show ∃ row, (process_one_email s e).messages = s.messages ++ [row] ∧ _ ∧ _
  unfold process_one_email
  rw [if_neg (by simp [hnew]), if_neg (by simp [hatt])]
  exact ⟨_, rfl, hplain, rfl⟩

/-- C7 amended witness at the concrete HTML-only message. -/
theorem claim_C7_amended_no_html_derivation_witness :
    ∃ row : MessageRow,
      (process_emails ingestStore0 [htmlData]).messages =
        ingestStore0.messages ++ [row] ∧
      row.body_plain = "" ∧
      row.body_html = htmlData.body_html :=
  claim_C7_amended_no_html_derivation ingestStore0 htmlData rfl rfl rfl
    (by decide)

/-- A one-account store for the scheduler claims: `last_check = some 3`,
seven messages already counted, model clock at 99. -/
def c9Config : ConfigRow :=
  { id := 1, name := "acct", username := "u@x", account_name := none
    enabled := true, last_check := some 3, total_emails_processed := 7 }

def c9Store : Store :=
  { configs := [c9Config], messages := [], attachments := []
    next_message_id := 1, now := 99 }

/-! ## Scheduler lemmas (stats and last_check) -/

theorem find_config_bump_total (cs : List ConfigRow) (cid n : Int) (c : ConfigRow)
    (h : cs.find? (fun x => x.id = cid) = some c) :
    (bump_total cs cid n).find? (fun x => x.id = cid) =
      some { c with total_emails_processed := c.total_emails_processed + n } := by
  induction cs with
  | nil => simp at h
  | cons c0 cs ih =>
    by_cases h0 : c0.id = cid
    · rw [List.find?_cons_of_pos _ (by simp [h0])] at h
      injection h with h
      subst h
      unfold bump_total
      rw [if_pos h0, List.find?_cons_of_pos _ (by simp [h0])]
    · rw [List.find?_cons_of_neg _ (by simp [h0])] at h
      unfold bump_total
      rw [if_neg h0, List.find?_cons_of_neg _ (by simp [h0])]
      exact ih h

theorem find_config_set_last_check (cs : List ConfigRow) (cid t : Int) (c : ConfigRow)
    (h : cs.find? (fun x => x.id = cid) = some c) :
    (set_last_check cs cid t).find? (fun x => x.id = cid) =
      some { c with last_check := some t } := by
  induction cs with
  | nil => simp at h
  | cons c0 cs ih =>
    by_cases h0 : c0.id = cid
    · rw [List.find?_cons_of_pos _ (by simp [h0])] at h
      injection h with h
      subst h
      unfold set_last_check
      rw [if_pos h0, List.find?_cons_of_pos _ (by simp [h0])]
    · rw [List.find?_cons_of_neg _ (by simp [h0])] at h
      unfold set_last_check
      rw [if_neg h0, List.find?_cons_of_neg _ (by simp [h0])]
      exact ih h

theorem find_config_update_server_stats (s : Store) (cid n : Int) (c : ConfigRow)
    (h : find_config s cid = some c) :
    find_config (update_server_stats s cid n) cid =
      some { c with total_emails_processed := c.total_emails_processed + n } :=
  find_config_bump_total s.configs cid n c h

theorem find_config_update_last_check (s : Store) (cid : Int) (c : ConfigRow)
    (h : find_config s cid = some c) :
    find_config (update_last_check s cid) cid = some { c with last_check := some s.now } :=
  find_config_set_last_check s.configs cid s.now c h

theorem find_config_process_emails (emails : List EmailData) (s : Store) (cid : Int) :
    find_config (process_emails s emails) cid = find_config s cid := by
  unfold find_config
  rw [process_emails_configs]

theorem update_server_stats_now (s : Store) (cid n : Int) :
    (update_server_stats s cid n).now = s.now := rfl

/-! ## Claim C8 -/

/-- C8: `total_emails_processed` is non-decreasing, and a poll whose fetch
returned a non-empty batch increments it by exactly the batch length —
the count of fetched messages, not of distinct inserts (the increment in
`_update_server_stats` is `len(emails)`, applied after `_process_emails`
regardless of how many rows the batch actually inserted). -/
theorem claim_C8_progress_counter_counts_batch (s : Store) (cid : Int)
    (emails : List EmailData) (c : ConfigRow)
    (hc : find_config s cid = some c) :
    ∃ c', find_config (process_server s cid (.fetched emails)).store cid = some c' ∧
      c'.total_emails_processed =
        c.total_emails_processed +
          (if emails.isEmpty then 0 else (emails.length : Int)) ∧
      c.total_emails_processed ≤ c'.total_emails_processed := by
  simp only [process_server, PollResult.store]
  by_cases he : emails.isEmpty
  · rw [if_pos he]
    refine ⟨_, find_config_update_last_check s cid c hc, ?_, le_refl _⟩
    simp [he]
  · rw [if_neg he]
    have h1 : find_config (process_emails s emails) cid = some c := by
      rw [find_config_process_emails]; exact hc
    have h2 := find_config_update_server_stats (process_emails s emails) cid
      (emails.length : Int) c h1
    refine ⟨_, find_config_update_last_check _ cid _ h2, ?_, ?_⟩
    · simp [he]
    · simp only []
      have : (0 : Int) ≤ (emails.length : Int) := Int.ofNat_nonneg _
      omega

/-- C8 witness: a two-message batch (both copies of the same message, so
the second is a duplicate) still bumps the counter by 2. -/
theorem claim_C8_progress_counter_counts_batch_witness :
    ∃ c', find_config (process_server c9Store 1 (.fetched [htmlData, htmlData])).store 1 =
        some c' ∧
      c'.total_emails_processed =
        c9Config.total_emails_processed +
          (if ([htmlData, htmlData] : List EmailData).isEmpty then 0
           else (([htmlData, htmlData] : List EmailData).length : Int)) ∧
      c9Config.total_emails_processed ≤ c'.total_emails_processed :=
  claim_C8_progress_counter_counts_batch c9Store 1 [htmlData, htmlData] c9Config rfl

/-! ## Claim C9 -/

/-- C9 counterexample: a poll aborted by cancellation during the fetch
exits with `last_check` untouched (`some 3`, not `some now = some 99`) —
there is no `finally` block; the update sits at the end of the `try`
body. -/
theorem claim_C9_counterexample_cancelled_fetch_skips_last_check :
    process_server c9Store 1 .cancelled = .aborted c9Store ∧
    (find_config (process_server c9Store 1 .cancelled).store 1).map
        (fun c => c.last_check) = some (some 3) ∧
    c9Store.now = 99 ∧
    ¬ ((find_config (process_server c9Store 1 .cancelled).store 1).map
        (fun c => c.last_check) = some (some c9Store.now)) :=
  ⟨rfl, rfl, rfl, by decide⟩

/-- C9 (amended): `last_check` is updated only when the poll body runs to
completion; a cancellation propagating out of the fetch leaves the whole
store — `last_check` included — unchanged, because the update is inside
the `try` block, not in a `finally`. -/
theorem claim_C9_amended_last_check_updated_only_on_completion :
    (∀ (s : Store) (cid : Int), process_server s cid .cancelled = .aborted s) ∧
    (∀ (s : Store) (cid : Int) (emails : List EmailData) (c : ConfigRow),
      find_config s cid = some c →
      ∃ c', find_config (process_server s cid (.fetched emails)).store cid = some c' ∧
        c'.last_check = some s.now) := by
  constructor
  · intro s cid
    rfl
  · intro s cid emails c hc
    simp only [process_server, PollResult.store]
    by_cases he : emails.isEmpty
    · rw [if_pos he]
      exact ⟨_, find_config_update_last_check s cid c hc, rfl⟩
    · rw [if_neg he]
      have h1 : find_config (process_emails s emails) cid = some c := by
        rw [find_config_process_emails]; exact hc
      have h2 := find_config_update_server_stats (process_emails s emails) cid
        (emails.length : Int) c h1
      refine ⟨_, find_config_update_last_check _ cid _ h2, ?_⟩
      show some ((update_server_stats (process_emails s emails) cid (emails.length : Int)).now) =
        some s.now
      rw [update_server_stats_now, process_emails_now]

/-- C9 amended witness: concrete cancelled and completed polls. -/
theorem claim_C9_amended_last_check_updated_only_on_completion_witness :
    process_server c9Store 1 .cancelled = .aborted c9Store ∧
    ∃ c', find_config (process_server c9Store 1 (.fetched [])).store 1 = some c' ∧
      c'.last_check = some c9Store.now :=
  ⟨claim_C9_amended_last_check_updated_only_on_completion.1 c9Store 1,
    claim_C9_amended_last_check_updated_only_on_completion.2 c9Store 1 [] c9Config rfl⟩

/-! ## Claim C10: the update fold, field by field -/

theorem foldl_optItem_name (o : Option (Option String)) (c : ConfigRecord) :
    (optItem o UpdateItem.name).foldl set_field c = { c with name := o.getD c.name } := by
  cases o <;> rfl

theorem foldl_optItem_account_name (o : Option (Option String)) (c : ConfigRecord) :
    (optItem o UpdateItem.account_name).foldl set_field c =
      { c with account_name := o.getD c.account_name } := by
  cases o <;> rfl

theorem foldl_optItem_host (o : Option (Option String)) (c : ConfigRecord) :
    (optItem o UpdateItem.host).foldl set_field c = { c with host := o.getD c.host } := by
  cases o <;> rfl

theorem foldl_optItem_port (o : Option (Option Int)) (c : ConfigRecord) :
    (optItem o UpdateItem.port).foldl set_field c = { c with port := o.getD c.port } := by
  cases o <;> rfl

theorem foldl_optItem_smtp_host (o : Option (Option String)) (c : ConfigRecord) :
    (optItem o UpdateItem.smtp_host).foldl set_field c =
      { c with smtp_host := o.getD c.smtp_host } := by
  cases o <;> rfl

theorem foldl_optItem_smtp_port (o : Option (Option Int)) (c : ConfigRecord) :
    (optItem o UpdateItem.smtp_port).foldl set_field c =
      { c with smtp_port := o.getD c.smtp_port } := by
  cases o <;> rfl

theorem foldl_optItem_username (o : Option (Option String)) (c : ConfigRecord) :
    (optItem o UpdateItem.username).foldl set_field c =
      { c with username := o.getD c.username } := by
  cases o <;> rfl

theorem foldl_optItem_password (o : Option (Option String)) (c : ConfigRecord) :
    (optItem o UpdateItem.password).foldl set_field c =
      { c with password := o.getD c.password } := by
  cases o <;> rfl

theorem foldl_optItem_imap_use_ssl (o : Option (Option Bool)) (c : ConfigRecord) :
    (optItem o UpdateItem.imap_use_ssl).foldl set_field c =
      { c with imap_use_ssl := o.getD c.imap_use_ssl } := by
  cases o <;> rfl

theorem foldl_optItem_imap_use_tls (o : Option (Option Bool)) (c : ConfigRecord) :
    (optItem o UpdateItem.imap_use_tls).foldl set_field c =
      { c with imap_use_tls := o.getD c.imap_use_tls } := by
  cases o <;> rfl

theorem foldl_optItem_smtp_use_ssl (o : Option (Option Bool)) (c : ConfigRecord) :
    (optItem o UpdateItem.smtp_use_ssl).foldl set_field c =
      { c with smtp_use_ssl := o.getD c.smtp_use_ssl } := by
  cases o <;> rfl

theorem foldl_optItem_smtp_use_tls (o : Option (Option Bool)) (c : ConfigRecord) :
    (optItem o UpdateItem.smtp_use_tls).foldl set_field c =
      { c with smtp_use_tls := o.getD c.smtp_use_tls } := by
  cases o <;> rfl

theorem foldl_optItem_enabled (o : Option (Option Bool)) (c : ConfigRecord) :
    (optItem o UpdateItem.enabled).foldl set_field c =
      { c with enabled := o.getD c.enabled } := by
  cases o <;> rfl

theorem foldl_optItem_store_text_only (o : Option (Option Bool)) (c : ConfigRecord) :
    (optItem o UpdateItem.store_text_only_override).foldl set_field c =
      { c with store_text_only_override := o.getD c.store_text_only_override } := by
  cases o <;> rfl

theorem foldl_optItem_max_attachment_size (o : Option (Option Int)) (c : ConfigRecord) :
    (optItem o UpdateItem.max_attachment_size_override).foldl set_field c =
      { c with max_attachment_size_override := o.getD c.max_attachment_size_override } := by
  cases o <;> rfl

theorem foldl_optItem_extract_pdf (o : Option (Option Bool)) (c : ConfigRecord) :
    (optItem o UpdateItem.extract_pdf_text_override).foldl set_field c =
      { c with extract_pdf_text_override := o.getD c.extract_pdf_text_override } := by
  cases o <;> rfl

theorem foldl_optItem_extract_docx (o : Option (Option Bool)) (c : ConfigRecord) :
    (optItem o UpdateItem.extract_docx_text_override).foldl set_field c =
      { c with extract_docx_text_override := o.getD c.extract_docx_text_override } := by
  cases o <;> rfl

theorem foldl_optItem_extract_image (o : Option (Option Bool)) (c : ConfigRecord) :
    (optItem o UpdateItem.extract_image_text_override).foldl set_field c =
      { c with extract_image_text_override := o.getD c.extract_image_text_override } := by
  cases o <;> rfl

theorem foldl_optItem_extract_other (o : Option (Option Bool)) (c : ConfigRecord) :
    (optItem o UpdateItem.extract_other_text_override).foldl set_field c =
      { c with extract_other_text_override := o.getD c.extract_other_text_override } := by
  cases o <;> rfl

/-- Closed form of the `setattr` fold over `dict(exclude_unset=True)`:
each field present in the request overwrites the column (`null` included),
each absent field keeps the old value, and the columns that
`SMTPConfigUpdate` does not expose are untouched. -/
theorem foldl_request_items (r : SMTPConfigUpdate) (c : ConfigRecord) :
    (request_items r).foldl set_field c =
      { c with
        name := r.name.getD c.name
        account_name := r.account_name.getD c.account_name
        host := r.host.getD c.host
        port := r.port.getD c.port
        smtp_host := r.smtp_host.getD c.smtp_host
        smtp_port := r.smtp_port.getD c.smtp_port
        username := r.username.getD c.username
        password := r.password.getD c.password
        imap_use_ssl := r.imap_use_ssl.getD c.imap_use_ssl
        imap_use_tls := r.imap_use_tls.getD c.imap_use_tls
        smtp_use_ssl := r.smtp_use_ssl.getD c.smtp_use_ssl
        smtp_use_tls := r.smtp_use_tls.getD c.smtp_use_tls
        enabled := r.enabled.getD c.enabled
        store_text_only_override := r.store_text_only_override.getD c.store_text_only_override
        max_attachment_size_override :=
          r.max_attachment_size_override.getD c.max_attachment_size_override
        extract_pdf_text_override := r.extract_pdf_text_override.getD c.extract_pdf_text_override
        extract_docx_text_override := r.extract_docx_text_override.getD c.extract_docx_text_override
        extract_image_text_override := r.extract_image_text_override.getD c.extract_image_text_override
        extract_other_text_override := r.extract_other_text_override.getD c.extract_other_text_override } := by
  unfold request_items
  simp only [List.foldl_append]
  rw [foldl_optItem_name, foldl_optItem_account_name, foldl_optItem_host,
    foldl_optItem_port, foldl_optItem_smtp_host, foldl_optItem_smtp_port,
    foldl_optItem_username, foldl_optItem_password, foldl_optItem_imap_use_ssl,
    foldl_optItem_imap_use_tls, foldl_optItem_smtp_use_ssl,
    foldl_optItem_smtp_use_tls, foldl_optItem_enabled,
    foldl_optItem_store_text_only, foldl_optItem_max_attachment_size,
    foldl_optItem_extract_pdf, foldl_optItem_extract_docx,
    foldl_optItem_extract_image, foldl_optItem_extract_other]

/-- A fully-populated account row. -/
def c10Record : ConfigRecord :=
  { id := 1, name := some "acct", account_name := some "a@x"
    host := some "imap.x", port := some 993, smtp_host := none
    smtp_port := some 587, username := some "u@x", password := some "pw"
    imap_use_ssl := some true, imap_use_tls := some false
    smtp_use_ssl := some false, smtp_use_tls := some true
    enabled := some true, store_text_only_override := none
    max_attachment_size_override := some 4096
    extract_pdf_text_override := some true
    extract_docx_text_override := none
    extract_image_text_override := none
    extract_other_text_override := none
    created_at := some 1, updated_at := some 5, last_check := some 3
    total_emails_processed := some 7 }

/-- A request that only renames the account. -/
def c10Request : SMTPConfigUpdate := { name := some (some "renamed") }

/-- C10 counterexample: a PUT that only sends `name` also modifies the
`updated_at` column (the model's `onupdate=func.now()` stamps it), so it
is not true that every column absent from the request keeps its previous
value. -/
theorem claim_C10_counterexample_updated_at_changes :
    (update_smtp_config 99 c10Record c10Request).toOption.map (fun u => u.updated_at) =
      some (some 99) ∧
    c10Record.updated_at = some 5 := by
  constructor
  · rfl
  · rfl

/-- Case analysis of a successful `update_smtp_config` commit: either the
fold made no net change (no UPDATE, row returned as-is, equal to the old
row) or the row is the fold result stamped with `updated_at = now`. -/
theorem update_smtp_config_ok_cases (now : Int) (c : ConfigRecord)
    (r : SMTPConfigUpdate) (u : ConfigRecord)
    (h : update_smtp_config now c r = .ok u) :
    (u = c ∧ u = (request_items r).foldl set_field c) ∨
      u = { (request_items r).foldl set_field c with updated_at := some now } := by
  simp only [update_smtp_config] at h
  split at h
  · exact absurd h (by simp)
  · split at h
    · rename_i heq
      injection h with h
      exact Or.inl ⟨h.symm.trans heq, h.symm⟩
    · injection h with h
      exact Or.inr h.symm

/-- C10 (amended): on a successful commit, every field present in the
request body overwrites its column — an explicit `null` stores NULL — and
every absent field keeps its value; `id`, `created_at`, `last_check` and
`total_emails_processed` are never touched; the one exception is
`updated_at`, which is stamped with the update time whenever the UPDATE
makes a net change (and the whole commit fails with no change when a NOT
NULL column would be set to `null`). -/
theorem claim_C10_amended_partial_update_frame (now : Int) (c : ConfigRecord)
    (r : SMTPConfigUpdate) (u : ConfigRecord)
    (h : update_smtp_config now c r = .ok u) :
    u.name = r.name.getD c.name ∧
    u.account_name = r.account_name.getD c.account_name ∧
    u.host = r.host.getD c.host ∧
    u.port = r.port.getD c.port ∧
    u.smtp_host = r.smtp_host.getD c.smtp_host ∧
    u.smtp_port = r.smtp_port.getD c.smtp_port ∧
    u.username = r.username.getD c.username ∧
    u.password = r.password.getD c.password ∧
    u.imap_use_ssl = r.imap_use_ssl.getD c.imap_use_ssl ∧
    u.imap_use_tls = r.imap_use_tls.getD c.imap_use_tls ∧
    u.smtp_use_ssl = r.smtp_use_ssl.getD c.smtp_use_ssl ∧
    u.smtp_use_tls = r.smtp_use_tls.getD c.smtp_use_tls ∧
    u.enabled = r.enabled.getD c.enabled ∧
    u.store_text_only_override = r.store_text_only_override.getD c.store_text_only_override ∧
    u.max_attachment_size_override =
      r.max_attachment_size_override.getD c.max_attachment_size_override ∧
    u.extract_pdf_text_override = r.extract_pdf_text_override.getD c.extract_pdf_text_override ∧
    u.extract_docx_text_override = r.extract_docx_text_override.getD c.extract_docx_text_override ∧
    u.extract_image_text_override =
      r.extract_image_text_override.getD c.extract_image_text_override ∧
    u.extract_other_text_override =
      r.extract_other_text_override.getD c.extract_other_text_override ∧
    u.id = c.id ∧
    u.created_at = c.created_at ∧
    u.last_check = c.last_check ∧
    u.total_emails_processed = c.total_emails_processed ∧
    (u = c ∨ u.updated_at = some now) := by
  rcases update_smtp_config_ok_cases now c r u h with ⟨huc, hufold⟩ | hufold <;>
    rw [foldl_request_items] at hufold <;> subst hufold
  · exact ⟨rfl, rfl, rfl, rfl, rfl, rfl, rfl, rfl, rfl, rfl, rfl, rfl, rfl, rfl,
      rfl, rfl, rfl, rfl, rfl, rfl, rfl, rfl, rfl, Or.inl huc⟩
  · exact ⟨rfl, rfl, rfl, rfl, rfl, rfl, rfl, rfl, rfl, rfl, rfl, rfl, rfl, rfl,
      rfl, rfl, rfl, rfl, rfl, rfl, rfl, rfl, rfl, Or.inr rfl⟩

/-- The row produced by the witness update. -/
def c10Updated : ConfigRecord :=
  { c10Record with name := some "renamed", updated_at := some 99 }

/-- C10 amended witness: the rename request at the concrete row. -/
theorem claim_C10_amended_partial_update_frame_witness :
    c10Updated.name = c10Request.name.getD c10Record.name :=
  (claim_C10_amended_partial_update_frame 99 c10Record c10Request c10Updated rfl).1

/-! ## Claims C4 and C5: the search handler -/

/-- A store with one message whose body is five spaces. -/
def wsMessage : MessageRow :=
  { id := 1, smtp_config_id := 1, sender := "a@x", recipient := "b@y"
    subject := "s", message_id := "<w>", body_plain := "     "
    body_html := "", log_file_path := none, email_date := some 10
    processed_at := 20, content_size := 5, attachment_count := 0 }

def searchStore : Store :=
  { configs := [demoConfig], messages := [wsMessage], attachments := []
    next_message_id := 2, now := 100 }

def emptyStore : Store :=
  { configs := [], messages := [], attachments := [], next_message_id := 1
    now := 0 }

/-- What the empty-query search returns on `searchStore`. -/
def emptyQueryResult : SearchResult :=
  { id := 1, sender := "a@x", recipient := "b@y", subject := "s"
    email_date := some 10, processed_at := 20, attachment_count := 0
    attachments := [], matched_field := "metadata", preview := "" }

/-- C5: no search response carries more than 100 results — the handler
clamps the limit with `min(limit, 100)` before paginating. -/
theorem claim_C5_search_hardcap (db : Store) (p : SearchParams)
    (rs : List SearchResult) (h : search_emails db p = .ok rs) :
    rs.length ≤ 100 := by
  simp only [search_emails] at h
  split at h
  · exact absurd h (by simp)
  · split at h
    · exact absurd h (by simp)
    · injection h with h
      subst h
      rw [List.length_map]
      refine le_trans (List.length_take_le _ _) ?_
      exact Int.toNat_le.mpr (by exact_mod_cast min_le_right p.limit 100)

/-- C5 witness: the empty store's search response. -/
theorem claim_C5_search_hardcap_witness : ([] : List SearchResult).length ≤ 100 :=
  claim_C5_search_hardcap emptyStore {} [] rfl

/-- C4 counterexample: the claim says an empty query aborts with a
validation failure before any result is computed; in fact
`search_emails` with `query=""` executes the filter-only search and
returns one result (with `matched_field="metadata"`). -/
theorem claim_C4_counterexample_empty_query_executes :
    search_emails searchStore { query := "" } = .ok [emptyQueryResult] ∧
    [emptyQueryResult].length = 1 := ⟨rfl, rfl⟩

/-- C4 (amended): the HTTP search handler performs no pattern validation
at all — an empty query is accepted and runs the filter-only search,
every returned result carrying `matched_field="metadata"` and an empty
preview; the empty/NUL/length/compile checks of the spec exist only in
the separate ripgrep `SearchService._validate_regex`, which rejects the
empty pattern, an uncompilable pattern such as `"("`, and any pattern
longer than 500 characters (returning an empty result list, not an
error response). -/
theorem claim_C4_amended_no_validation_in_handler :
    (∀ (db : Store) (p : SearchParams), p.query = "" → 0 ≤ p.skip → 0 ≤ p.limit →
      ∃ rs, search_emails db p = .ok rs ∧
        ∀ r ∈ rs, r.matched_field = "metadata" ∧ r.preview = "") ∧
    validate_regex "" = false ∧
    validate_regex "(" = false ∧
    (∀ s : String, 500 < s.length → validate_regex s = false) := by
  refine ⟨?_, rfl, rfl, ?_⟩
  · intro db p hq hskip hlim
    simp only [search_emails, regex_stage, hq, if_true, reduceIte]
    rw [if_neg ?hcond]
    case hcond =>
      simp only [Bool.or_eq_true, decide_eq_true_eq, not_or, not_lt]
      exact ⟨hskip, le_min hlim (by norm_num)⟩
    refine ⟨_, rfl, ?_⟩
    intro r hr
    rw [List.mem_map] at hr
    obtain ⟨m, _, rfl⟩ := hr
    simp [build_search_result, hq]
  · intro s hs
    simp [validate_regex, hs]

/-- C4 amended witness: the concrete empty-query search and a concrete
overlong pattern. -/
theorem claim_C4_amended_no_validation_in_handler_witness :
    (∃ rs, search_emails searchStore { query := "" } = .ok rs ∧
      ∀ r ∈ rs, r.matched_field = "metadata" ∧ r.preview = "") ∧
    validate_regex (String.mk (List.replicate 501 'A')) = false :=
  ⟨claim_C4_amended_no_validation_in_handler.1 searchStore { query := "" } rfl
      (by norm_num) (by norm_num),
    claim_C4_amended_no_validation_in_handler.2.2.2 _ (by decide)⟩

/-! ## Claim C6: lemmas about the case-insensitive matcher -/

theorem ciFindFrom_shift (pat l : List Char) (j : Nat) :
    ciFindFrom pat l j = (ciFindFrom pat l 0).map (· + j) := by
  induction l generalizing j with
  | nil =>
    unfold ciFindFrom
    split <;> simp
  | cons t ts ih =>
    unfold ciFindFrom
    split
    · simp
    · rw [ih (j + 1), ih 1]
      cases ciFindFrom pat ts 0
      · simp
      · simp
        omega

theorem ciFindFrom_spec (pat l : List Char) (i : Nat)
    (h : ciFindFrom pat l 0 = some i) :
    ciIsPrefixOf pat (l.drop i) = true := by
  induction l generalizing i with
  | nil =>
    unfold ciFindFrom at h
    split at h
    · rename_i hp
      injection h with h
      subst h
      exact hp
    · exact absurd h (by simp)
  | cons t ts ih =>
    unfold ciFindFrom at h
    split at h
    · rename_i hp
      injection h with h
      subst h
      exact hp
    · rw [ciFindFrom_shift] at h
      cases hf : ciFindFrom pat ts 0 with
      | none => rw [hf] at h; exact absurd h (by simp)
      | some k =>
        rw [hf] at h
        simp only [Option.map_some'] at h
        injection h with h
        subst h
        rw [List.drop_succ_cons]
        exact ih k hf

theorem ciIsPrefixOf_length_le (pat l : List Char)
    (h : ciIsPrefixOf pat l = true) : pat.length ≤ l.length := by
  induction pat generalizing l with
  | nil => simp
  | cons p ps ih =>
    cases l with
    | nil => exact absurd h (by simp [ciIsPrefixOf])
    | cons t ts =>
      simp only [ciIsPrefixOf, Bool.and_eq_true] at h
      simpa using ih ts h.2

theorem ciIsPrefixOf_take (pat l : List Char)
    (h : ciIsPrefixOf pat l = true) :
    ciIsPrefixOf pat (l.take pat.length) = true := by
  induction pat generalizing l with
  | nil => simp [ciIsPrefixOf]
  | cons p ps ih =>
    cases l with
    | nil => exact absurd h (by simp [ciIsPrefixOf])
    | cons t ts =>
      simp only [ciIsPrefixOf, Bool.and_eq_true] at h
      simp only [List.length_cons, List.take_succ_cons, ciIsPrefixOf,
        Bool.and_eq_true]
      exact ⟨h.1, ih ts h.2⟩

theorem ciIsPrefixOf_append (pat m b : List Char)
    (h : ciIsPrefixOf pat m = true) :
    ciIsPrefixOf pat (m ++ b) = true := by
  induction pat generalizing m with
  | nil => simp [ciIsPrefixOf]
  | cons p ps ih =>
    cases m with
    | nil => exact absurd h (by simp [ciIsPrefixOf])
    | cons t ts =>
      simp only [ciIsPrefixOf, Bool.and_eq_true] at h
      simp only [List.cons_append, ciIsPrefixOf, Bool.and_eq_true]
      exact ⟨h.1, ih ts h.2⟩

theorem ciContains_cons (pat : List Char) (x : Char) (rest : List Char) :
    ciContains pat (x :: rest) =
      (ciIsPrefixOf pat (x :: rest) || ciContains pat rest) := by
  unfold ciContains
  rw [show ciFindFrom pat (x :: rest) 0 =
      (if ciIsPrefixOf pat (x :: rest) = true then some 0
       else ciFindFrom pat rest 1) from rfl]
  split
  · rename_i hp
    simp [hp]
  · rename_i hp
    rw [ciFindFrom_shift]
    simp [Bool.eq_false_iff.mpr hp]

theorem ciContains_of_startsWithMatch (pat a t : List Char)
    (h : ciIsPrefixOf pat t = true) : ciContains pat (a ++ t) = true := by
  induction a with
  | nil =>
    cases t with
    | nil =>
      cases pat with
      | nil => rfl
      | cons p ps => exact absurd h (by simp [ciIsPrefixOf])
    | cons x xs =>
      rw [List.nil_append, ciContains_cons, h]
      rfl
  | cons x xs ih =>
    rw [List.cons_append, ciContains_cons, ih]
    simp

/-- Containment is preserved by putting the text in a larger context. -/
theorem ciContains_append (pat x w y : List Char)
    (h : ciContains pat w = true) : ciContains pat (x ++ w ++ y) = true := by
  unfold ciContains at h
  cases hf : ciFindFrom pat w 0 with
  | none => rw [hf] at h; exact absurd h (by simp)
  | some i =>
    have hpre := ciFindFrom_spec pat w i hf
    have hdecomp : x ++ w ++ y = (x ++ w.take i) ++ (w.drop i ++ y) := by
      conv_lhs => rw [← List.take_append_drop i w]
      rw [← List.append_assoc x, List.append_assoc (x ++ w.take i)]
    rw [hdecomp]
    exact ciContains_of_startsWithMatch pat _ _ (ciIsPrefixOf_append _ _ _ hpre)

theorem char_toNat_ofNat (n : Nat) (h : n < 55296) : (Char.ofNat n).toNat = n := by
  unfold Char.ofNat
  rw [dif_pos (Or.inl h)]
  rfl

theorem isPyWhitespace_eq_false_of_ge (c : Char) (h : 65 ≤ c.toNat) :
    isPyWhitespace c = false := by
  have h1 : c ≠ ' ' := by rintro rfl; exact absurd h (by decide)
  have h2 : c ≠ '\t' := by rintro rfl; exact absurd h (by decide)
  have h3 : c ≠ '\n' := by rintro rfl; exact absurd h (by decide)
  have h4 : c ≠ '\r' := by rintro rfl; exact absurd h (by decide)
  have h5 : c ≠ '\x0b' := by rintro rfl; exact absurd h (by decide)
  have h6 : c ≠ '\x0c' := by rintro rfl; exact absurd h (by decide)
  simp [isPyWhitespace, h1, h2, h3, h4, h5, h6]

theorem isPyWhitespace_toLower (x : Char) :
    isPyWhitespace x.toLower = isPyWhitespace x := by
  show isPyWhitespace
      (if x.toNat ≥ 65 ∧ x.toNat ≤ 90 then Char.ofNat (x.toNat + 32) else x) =
    isPyWhitespace x
  by_cases hx : x.toNat ≥ 65 ∧ x.toNat ≤ 90
  · rw [if_pos hx]
    rw [isPyWhitespace_eq_false_of_ge x hx.1]
    apply isPyWhitespace_eq_false_of_ge
    rw [char_toNat_ofNat _ (by omega)]
    omega
  · rw [if_neg hx]

/-- Case-insensitively equal characters agree on being whitespace
(`Char.toLower` only moves uppercase ASCII letters, never into or out of
the whitespace set). -/
theorem ciEq_whitespace (c d : Char) (h : ciEq c d = true) :
    isPyWhitespace c = isPyWhitespace d := by
  have hcd : c.toLower = d.toLower := by
    unfold ciEq at h
    exact of_decide_eq_true h
  rw [← isPyWhitespace_toLower c, hcd, isPyWhitespace_toLower d]

theorem ciIsPrefixOf_head (p : Char) (ps m : List Char)
    (h : ciIsPrefixOf (p :: ps) m = true) :
    ∃ d m', m = d :: m' ∧ ciEq p d = true := by
  cases m with
  | nil => exact absurd h (by simp [ciIsPrefixOf])
  | cons d m' =>
    simp only [ciIsPrefixOf, Bool.and_eq_true] at h
    exact ⟨d, m', rfl, h.1⟩

theorem ciIsPrefixOf_getLast (pl : List Char) :
    ∀ (M : List Char), ciIsPrefixOf pl M = true → M.length = pl.length →
    ∀ (c d : Char), pl.getLast? = some c → M.getLast? = some d →
    ciEq c d = true := by
  induction pl with
  | nil =>
    intro M _ _ c d hc _
    simp at hc
  | cons p ps ih =>
    intro M h hlen c d hc hd
    cases M with
    | nil => simp at hlen
    | cons m ms =>
      simp only [ciIsPrefixOf, Bool.and_eq_true] at h
      cases ps with
      | nil =>
        have hms : ms = [] := by
          simpa using List.length_eq_zero.mp (by simpa using hlen)
        subst hms
        simp only [List.getLast?_singleton] at hc hd
        injection hc with hc
        injection hd with hd
        subst hc
        subst hd
        exact h.1
      | cons q qs =>
        cases ms with
        | nil => simp at hlen
        | cons n ns =>
          rw [List.getLast?_cons_cons] at hc hd
          exact ih (n :: ns) h.2 (by simpa using hlen) c d hc hd

theorem dropWhile_append_of_head (p : Char → Bool) (a t : List Char) (c : Char)
    (hc : t.head? = some c) (hpc : p c = false) :
    ∃ a2, (a ++ t).dropWhile p = a2 ++ t := by
  induction a with
  | nil =>
    cases t with
    | nil => simp at hc
    | cons x xs =>
      have hx : x = c := by
        simpa using hc
      subst hx
      exact ⟨[], by simp [List.dropWhile_cons, hpc]⟩
  | cons y ys ih =>
    rw [List.cons_append, List.dropWhile_cons]
    by_cases hy : p y = true
    · obtain ⟨a2, ha2⟩ := ih
      exact ⟨a2, by simp [hy, ha2]⟩
    · exact ⟨y :: ys, by simp [hy]⟩

/-- `str.strip()` around an infix whose first and last characters are not
whitespace keeps that infix intact. -/
theorem pystripL_keeps_mid (a m b : List Char) (c d : Char)
    (hh : m.head? = some c) (hwc : isPyWhitespace c = false)
    (hl : m.getLast? = some d) (hwd : isPyWhitespace d = false) :
    ∃ a2 b2, pystripL (a ++ m ++ b) = a2 ++ m ++ b2 := by
  have hH : (m ++ b).head? = some c := by
    cases m with
    | nil => simp at hh
    | cons x xs => simpa using hh
  obtain ⟨a2, ha2⟩ := dropWhile_append_of_head isPyWhitespace a (m ++ b) c hH hwc
  unfold pystripL
  rw [List.append_assoc, ha2]
  have hrev : (a2 ++ (m ++ b)).reverse = b.reverse ++ (m.reverse ++ a2.reverse) := by
    simp [List.reverse_append, List.append_assoc]
  rw [hrev]
  have hH2 : (m.reverse ++ a2.reverse).head? = some d := by
    cases hm : m.reverse with
    | nil =>
      rw [List.reverse_eq_nil_iff] at hm
      subst hm
      simp at hl
    | cons z zs =>
      have : m.reverse.head? = some d := by
        rw [List.head?_reverse]
        exact hl
      rw [hm] at this
      simpa [hm] using this
  obtain ⟨b2r, hb2r⟩ :=
    dropWhile_append_of_head isPyWhitespace b.reverse (m.reverse ++ a2.reverse) d hH2 hwd
  rw [hb2r]
  refine ⟨a2, b2r.reverse, ?_⟩
  simp [List.reverse_append, List.append_assoc]

/-- The preview window sliced around a match splits as
prefix ++ match ++ suffix. -/
theorem sliceL_decomp (tl : List Char) (ms plen start stop : Nat)
    (hstart : start ≤ ms) (hstop1 : ms + plen ≤ stop) (hstop2 : stop ≤ tl.length) :
    sliceL tl start stop =
      (tl.take ms).drop start ++
        ((tl.drop ms).take plen ++ (tl.drop (ms + plen)).take (stop - (ms + plen))) := by
  unfold sliceL
  have hmslen : ms ≤ tl.length := by omega
  have h1 : tl.take stop = tl.take ms ++ (tl.drop ms).take (stop - ms) := by
    rw [show stop = ms + (stop - ms) by omega, List.take_add]
    congr 2
    omega
  rw [h1]
  rw [List.drop_append_of_le_length (by rw [List.length_take, Nat.min_eq_left hmslen]; exact hstart)]
  congr 1
  rw [show stop - ms = plen + (stop - (ms + plen)) by omega, List.take_add]
  congr 1
  rw [List.drop_drop]

/-- The found-match arm in the canonical
`dots ++ stripped-window ++ dots` shape. -/
theorem previewAround_eq (tl : List Char) (ms me : Nat) :
    previewAround tl ms me =
      (if ms - 100 > 0 then "...".toList else []) ++
        pystripL (sliceL tl (ms - 100) (min tl.length (me + 100))) ++
        (if min tl.length (me + 100) < tl.length then "...".toList else []) := by
  unfold previewAround
  by_cases h1 : ms - 100 > 0
  · by_cases h2 : min tl.length (me + 100) < tl.length
    · simp [h1, h2]
    · simp [h1, h2]
  · by_cases h2 : min tl.length (me + 100) < tl.length
    · simp [h1, h2]
    · simp [h1, h2]

/-- `_generate_preview` in the found-match branch. -/
theorem generate_preview_eq_of_found (text pat : String) (ms me : Nat)
    (htext : text ≠ "") (hpat : pat ≠ "")
    (hs : ciSearch pat.toList text.toList = some (ms, me)) :
    generate_preview text pat =
      String.mk
        ((if ms - 100 > 0 then "...".toList else []) ++
          pystripL (sliceL text.toList (ms - 100) (min text.toList.length (me + 100))) ++
          (if min text.toList.length (me + 100) < text.toList.length then "...".toList
           else [])) := by
  unfold generate_preview
  rw [if_neg (by simp [htext, hpat]), hs]
  dsimp only
  rw [previewAround_eq]

/-- Preview truthfulness for patterns that neither begin nor end with
whitespace: when `_generate_preview` finds a match, the returned preview
still contains a case-insensitive occurrence of the pattern — the
`str.strip()` of the window cannot remove any part of the matched text. -/
theorem generate_preview_contains (text pat : String) (hpat : pat ≠ "")
    (hfound : ciContains pat.toList text.toList = true)
    (hhead : ∀ c ∈ pat.toList.head?, isPyWhitespace c = false)
    (hlast : ∀ c ∈ pat.toList.getLast?, isPyWhitespace c = false) :
    ciContainsStr pat (generate_preview text pat) = true := by
  obtain ⟨p0, pl', hpl⟩ : ∃ p0 pl', pat.toList = p0 :: pl' := by
    cases hp : pat.toList with
    | nil =>
      exfalso
      apply hpat
      cases pat with
      | mk data => exact congrArg String.mk hp
    | cons a l => exact ⟨a, l, rfl⟩
  have htext : text ≠ "" := by
    intro h
    rw [h] at hfound
    rw [hpl] at hfound
    simp [ciContains, ciFindFrom, ciIsPrefixOf] at hfound
  unfold ciContains at hfound
  cases hf : ciFindFrom pat.toList text.toList 0 with
  | none => rw [hf] at hfound; exact absurd hfound (by simp)
  | some ms =>
    have hs : ciSearch pat.toList text.toList = some (ms, ms + pat.toList.length) := by
      unfold ciSearch
      rw [hf]
    rw [generate_preview_eq_of_found text pat ms (ms + pat.toList.length) htext hpat hs]
    -- the matched segment
    have hpre := ciFindFrom_spec _ _ _ hf
    have hlenle := ciIsPrefixOf_length_le _ _ hpre
    have hMpre := ciIsPrefixOf_take _ _ hpre
    have hMlen : ((text.toList.drop ms).take pat.toList.length).length = pat.toList.length := by
      rw [List.length_take]
      exact Nat.min_eq_left hlenle
    have hplpos : 0 < pat.toList.length := by rw [hpl]; simp
    have hbound : ms + pat.toList.length ≤ text.toList.length := by
      have hd := List.length_drop ms text.toList
      omega
    -- window decomposition
    have hstop1 : ms + pat.toList.length ≤
        min text.toList.length (ms + pat.toList.length + 100) := by
      exact le_min hbound (by omega)
    have hstop2 : min text.toList.length (ms + pat.toList.length + 100) ≤
        text.toList.length := min_le_left _ _
    have hw := sliceL_decomp text.toList ms pat.toList.length (ms - 100)
      (min text.toList.length (ms + pat.toList.length + 100))
      (by omega) hstop1 hstop2
    -- boundary characters of the matched segment are not whitespace
    obtain ⟨d0, M', hM⟩ := ciIsPrefixOf_head p0 pl' _ (by rw [← hpl]; exact hMpre)
    have hd0 : isPyWhitespace d0 = false := by
      rw [← ciEq_whitespace p0 d0 hM.2]
      exact hhead p0 (by rw [hpl]; rfl)
    obtain ⟨cL, hcL⟩ : ∃ cL, pat.toList.getLast? = some cL := by
      rw [hpl]
      exact ⟨(p0 :: pl').getLast (by simp), List.getLast?_eq_getLast _ (by simp)⟩
    obtain ⟨dL, hdL⟩ : ∃ dL, ((text.toList.drop ms).take pat.toList.length).getLast? = some dL := by
      rw [hM.1]
      exact ⟨(d0 :: M').getLast (by simp), List.getLast?_eq_getLast _ (by simp)⟩
    have hdLws : isPyWhitespace dL = false := by
      rw [← ciEq_whitespace cL dL (ciIsPrefixOf_getLast _ _ hMpre hMlen cL dL hcL hdL)]
      exact hlast cL hcL
    -- strip keeps the segment
    have hMhead : ((text.toList.drop ms).take pat.toList.length).head? = some d0 := by
      rw [hM.1]
      rfl
    obtain ⟨a2, b2, hstrip⟩ := pystripL_keeps_mid
      ((text.toList.take ms).drop (ms - 100))
      ((text.toList.drop ms).take pat.toList.length)
      ((text.toList.drop (ms + pat.toList.length)).take
        (min text.toList.length (ms + pat.toList.length + 100) - (ms + pat.toList.length)))
      d0 dL hMhead hd0 hdL hdLws
    -- assemble
    show ciContains pat.toList _ = true
    rw [hw]
    rw [show (text.toList.take ms).drop (ms - 100) ++
        ((text.toList.drop ms).take pat.toList.length ++
          (text.toList.drop (ms + pat.toList.length)).take
            (min text.toList.length (ms + pat.toList.length + 100) -
              (ms + pat.toList.length))) =
        (text.toList.take ms).drop (ms - 100) ++
          (text.toList.drop ms).take pat.toList.length ++
          (text.toList.drop (ms + pat.toList.length)).take
            (min text.toList.length (ms + pat.toList.length + 100) -
              (ms + pat.toList.length)) by rw [List.append_assoc]]
    rw [hstrip]
    apply ciContains_append
    rw [List.append_assoc]
    exact ciContains_of_startsWithMatch _ a2 _ (ciIsPrefixOf_append _ _ _ hMpre)

theorem mem_insertSorted {α : Type} (le : α → α → Bool) (x a : α) (l : List α) :
    a ∈ insertSorted le x l ↔ a = x ∨ a ∈ l := by
  induction l with
  | nil => simp [insertSorted]
  | cons b t ih =>
    unfold insertSorted
    split
    · simp [List.mem_cons]
    · simp only [List.mem_cons, ih]
      tauto

theorem mem_order_by {α : Type} (le : α → α → Bool) (l : List α) (a : α) :
    a ∈ order_by le l ↔ a ∈ l := by
  induction l with
  | nil => simp [order_by]
  | cons b t ih =>
    unfold order_by
    rw [mem_insertSorted, ih]
    simp [List.mem_cons]

/-- Which branch of the matched-field attribution a row can take for a
non-empty query: either the result is labelled `metadata`, or its preview
comes from `_generate_preview` on one of the three columns, with either a
direct (Python-side) match on that column or an explicit `field` that the
SQL filter already constrained. -/
theorem build_result_cases (db : Store) (p : SearchParams) (m : MessageRow)
    (hq : p.query ≠ "") :
    (build_search_result db p m).matched_field = "metadata" ∨
    ∃ t : String,
      (build_search_result db p m).preview = generate_preview t p.query ∧
      (ciContainsStr p.query t = true ∨
        (p.field = some "body" ∧ t = m.body_plain) ∨
        (p.field = some "subject" ∧ t = m.subject) ∨
        (p.field = some "sender" ∧ t = m.sender)) := by
  simp only [build_search_result]
  rw [if_pos hq]
  split
  · rename_i h1
    refine Or.inr ⟨m.body_plain, rfl, ?_⟩
    rw [Bool.or_eq_true] at h1
    rcases h1 with hf | hfc
    · exact Or.inr (Or.inl ⟨of_decide_eq_true hf, rfl⟩)
    · rw [Bool.and_eq_true] at hfc
      exact Or.inl hfc.2
  · split
    · rename_i h2
      refine Or.inr ⟨m.subject, rfl, ?_⟩
      rw [Bool.or_eq_true] at h2
      rcases h2 with hf | hfc
      · exact Or.inr (Or.inr (Or.inl ⟨of_decide_eq_true hf, rfl⟩))
      · rw [Bool.and_eq_true] at hfc
        exact Or.inl hfc.2
    · split
      · rename_i h3
        refine Or.inr ⟨m.sender, rfl, ?_⟩
        rw [Bool.or_eq_true] at h3
        rcases h3 with hf | hfc
        · exact Or.inr (Or.inr (Or.inr ⟨of_decide_eq_true hf, rfl⟩))
        · rw [Bool.and_eq_true] at hfc
          exact Or.inl hfc.2
      · split
        · exact Or.inl rfl
        · exact Or.inl rfl

/-- C6 (amended): for a non-empty query whose pattern neither begins nor
ends with a whitespace character, every search result whose
`matched_field` is not `"metadata"` carries a preview containing at least
one case-insensitive occurrence of the query.  (The restriction is
forced: the `str.strip()` applied to the preview window can delete a
match that begins or ends with whitespace — see the counterexample.) -/
theorem claim_C6_amended_preview_contains_match (db : Store) (p : SearchParams)
    (rs : List SearchResult) (r : SearchResult)
    (hok : search_emails db p = .ok rs) (hr : r ∈ rs)
    (hmf : r.matched_field ≠ "metadata")
    (hhead : ∀ c ∈ p.query.toList.head?, isPyWhitespace c = false)
    (hlast : ∀ c ∈ p.query.toList.getLast?, isPyWhitespace c = false) :
    ciContainsStr p.query r.preview = true := by
  simp only [search_emails] at hok
  split at hok
  · exact absurd hok (by simp)
  · rename_i rows heq
    split at hok
    · exact absurd hok (by simp)
    · injection hok with hok
      subst hok
      rw [List.mem_map] at hr
      obtain ⟨m, hm, rfl⟩ := hr
      have hmrows : m ∈ rows :=
        (mem_order_by _ _ _).mp (List.mem_of_mem_drop (List.mem_of_mem_take hm))
      by_cases hq : p.query = ""
      · exact absurd (by simp [build_search_result, hq]) hmf
      · have hpred : regex_row_pred p m = true := by
          unfold regex_stage at heq
          rw [if_neg hq] at heq
          split at heq
          · exact absurd heq (by simp)
          · split at heq
            · exact absurd heq (by simp)
            · split at heq
              · exact absurd heq (by simp)
              · injection heq with heq
                rw [← heq] at hmrows
                exact List.of_mem_filter hmrows
        rcases build_result_cases db p m hq with hmeta | ⟨t, hprev, hev⟩
        · exact absurd hmeta hmf
        · rw [hprev]
          refine generate_preview_contains t p.query hq ?_ hhead hlast
          rcases hev with hct | ⟨hf, rfl⟩ | ⟨hf, rfl⟩ | ⟨hf, rfl⟩
          · exact hct
          · unfold regex_row_pred at hpred
            simp only [hf] at hpred
            simpa using hpred
          · unfold regex_row_pred at hpred
            simp only [hf] at hpred
            simpa using hpred
          · unfold regex_row_pred at hpred
            simp only [hf] at hpred
            simpa using hpred

/-- The result the whitespace search returns. -/
def wsResult : SearchResult :=
  { id := 1, sender := "a@x", recipient := "b@y", subject := "s"
    email_date := some 10, processed_at := 20, attachment_count := 0
    attachments := [], matched_field := "body", preview := "" }

/-- C6 counterexample: searching the five-space body with the query `" "`
returns a result with `matched_field = "body"` whose preview — the
`str.strip()`ed window — is empty and contains no match of the query at
all. -/
theorem claim_C6_counterexample_whitespace_query_strips_match :
    search_emails searchStore { query := " " } = .ok [wsResult] ∧
    wsResult.matched_field = "body" ∧
    ¬ wsResult.matched_field = "metadata" ∧
    ciContainsStr " " wsResult.preview = false :=
  ⟨rfl, rfl, by decide, rfl⟩

/-- A store with one message matching `invoice` in the body. -/
def invMessage : MessageRow :=
  { wsMessage with
    id := 2
    message_id := "<i>"
    body_plain := "please pay the Invoice now" }

def invStore : Store :=
  { configs := [demoConfig], messages := [invMessage], attachments := []
    next_message_id := 3, now := 100 }

def invParams : SearchParams := { query := "invoice" }

def invResult : SearchResult :=
  { id := 2, sender := "a@x", recipient := "b@y", subject := "s"
    email_date := some 10, processed_at := 20, attachment_count := 0
    attachments := [], matched_field := "body"
    preview := "please pay the Invoice now" }

/-- C6 amended witness: the concrete `invoice` search. -/
theorem claim_C6_amended_preview_contains_match_witness :
    ciContainsStr invParams.query invResult.preview = true :=
  claim_C6_amended_preview_contains_match invStore invParams [invResult] invResult
    rfl (by simp) (by decide) (by decide) (by decide)

end EmailServer
